import Mathlib

/-!
# Verification of the face-attendance recognition core

Shallow embedding of the recognition subsystem of the face-attendance
repository (`recognition_service.py`, `database.py`, `config.py`) and proofs
of the specification claims about it.

Modelling conventions:
* numpy float arrays become `List ℚ`; exact rational arithmetic idealises the
  IEEE floats of the source.
* The source compares Euclidean (L2) distances, `np.linalg.norm(e - x)`,
  against a threshold.  To stay computable we carry the *square* of every
  distance (`sqDist`): since `Real.sqrt` is strictly monotone on nonnegative
  numbers, `argmin` over squares equals `argmin` over distances, and
  `sqrt s < t ↔ 0 < t ∧ s < t²`.  A model value `d` thus represents the
  source distance `√d`; theorems that speak about the actual L2 distance use
  `Real.sqrt` explicitly in their statements.
* Wall-clock instants (`datetime.utcnow()`) become rationals counting seconds.
* Fallible lookups (Python `IndexError`) become `Option`.
-/

namespace FaceAttendance

/-- Squared L2 distance between two vectors, `‖a - b‖²`: the square of
`np.linalg.norm(a - b)` used in `FaceRecognitionService.recognize_face`. -/
def sqDist (a b : List ℚ) : ℚ :=
  (List.zipWith (fun x y => (x - y) * (x - y)) a b).sum

/-- Minimum of a list of (squared) distances, as computed by `np.min`
semantics; `0` on the empty list (never used there by the source, which
guards on emptiness first). -/
def minD : List ℚ → ℚ
  | [] => 0
  | [x] => x
  | x :: y :: xs => min x (minD (y :: xs))

/-- Index of the *first* occurrence of the minimum, the semantics of
`np.argmin` on a 1-D array. -/
def argminIdx : List ℚ → Nat
  | [] => 0
  | [_] => 0
  | x :: y :: xs => if x ≤ minD (y :: xs) then 0 else argminIdx (y :: xs) + 1

/-- The decision `√s < t` for a nonnegative squared distance `s`, expressed
without `Real.sqrt`: `√s < t ↔ 0 < t ∧ s < t²`.  This is the comparison
`min_distance < self.config.RECOGNITION_THRESHOLD` of the source, carried on
squares. -/
def sqrtLtQ (s t : ℚ) : Bool :=
  decide (0 < t) && decide (s < t * t)

/-- In-memory store of known faces: the three parallel lists
`known_encodings`, `known_names`, `known_ids` of `FaceRecognitionService`. -/
structure Store where
  known_encodings : List (List ℚ)
  known_names : List String
  known_ids : List Nat
  deriving Repr, DecidableEq

/-- The list `distances` of `recognize_face`: squared L2 distance from the
query embedding to every known encoding, in store order. -/
def distances (store : Store) (embedding : List ℚ) : List ℚ :=
  store.known_encodings.map (fun e => sqDist e embedding)

/-- `FaceRecognitionService.recognize_face`.  Returns
`(name, squared distance, student_db_id)`; `none` models the `IndexError`
raised when the parallel lists are shorter than the encoding list (possible
only on a partially reloaded store). -/
def recognize_face (store : Store) (threshold : ℚ) (embedding : List ℚ) :
    Option (String × ℚ × Option Nat) :=
  if store.known_encodings.length = 0 then
    some ("Unknown", 1, none)
  else
    let i := argminIdx (distances store embedding)
    let m := minD (distances store embedding)
    if sqrtLtQ m threshold then
      match store.known_names.get? i, store.known_ids.get? i with
      | some nm, some sid => some (nm, m, some sid)
      | _, _ => none
    else
      some ("Unknown", m, none)

/-! ## Basic lemmas about `minD` and `argminIdx` -/

theorem minD_le_mem : ∀ (l : List ℚ), ∀ a ∈ l, minD l ≤ a := by
  intro l
  induction l with
  | nil => intro a ha; cases ha
  | cons x xs ih =>
    intro a ha
    rcases List.mem_cons.mp ha with h | h
    · subst h
      cases xs with
      | nil => exact le_of_eq rfl
      | cons y ys => exact min_le_left _ _
    · cases xs with
      | nil => cases h
      | cons y ys => exact le_trans (min_le_right _ _) (ih a h)

theorem argminIdx_lt_length : ∀ (l : List ℚ), l ≠ [] → argminIdx l < l.length := by
  intro l
  induction l with
  | nil => intro h; exact absurd rfl h
  | cons x xs ih =>
    intro _
    cases xs with
    | nil => simp [argminIdx]
    | cons y ys =>
      by_cases hx : x ≤ minD (y :: ys)
      · simp [argminIdx, hx]
      · have h1 := ih (by simp)
        have h2 : (y :: ys).length = ys.length + 1 := by simp
        simp only [argminIdx, hx, if_false, List.length_cons]
        omega

theorem get?_argminIdx : ∀ (l : List ℚ), l ≠ [] →
    l.get? (argminIdx l) = some (minD l) := by
  intro l
  induction l with
  | nil => intro h; exact absurd rfl h
  | cons x xs ih =>
    intro _
    cases xs with
    | nil => simp [argminIdx, minD]
    | cons y ys =>
      by_cases hx : x ≤ minD (y :: ys)
      · simp [argminIdx, hx, minD, min_eq_left hx]
      · have h1 := ih (by simp)
        have hlt : minD (y :: ys) < x := lt_of_not_le hx
        have hmin : minD (x :: y :: ys) = minD (y :: ys) := by
          simp [minD, min_eq_right (le_of_lt hlt)]
        have hidx : argminIdx (x :: y :: ys) = argminIdx (y :: ys) + 1 := by
          simp [argminIdx, hx]
        rw [hidx, List.get?_cons_succ, h1, hmin]

theorem argminIdx_first : ∀ (l : List ℚ), ∀ j < argminIdx l,
    ∀ a, l.get? j = some a → minD l < a := by
  intro l
  induction l with
  | nil => intro j hj; simp [argminIdx] at hj
  | cons x xs ih =>
    intro j hj a ha
    cases xs with
    | nil => simp [argminIdx] at hj
    | cons y ys =>
      by_cases hx : x ≤ minD (y :: ys)
      · simp [argminIdx, hx] at hj
      · have hlt : minD (y :: ys) < x := lt_of_not_le hx
        simp only [argminIdx, hx, if_false] at hj
        have hmin : minD (x :: y :: ys) = minD (y :: ys) := by
          simp [minD, min_eq_right (le_of_lt hlt)]
        cases j with
        | zero =>
          simp at ha
          rw [hmin, ← ha]; exact hlt
        | succ j' =>
          have hj' : j' < argminIdx (y :: ys) := by omega
          have := ih j' hj' a (by simpa using ha)
          rw [hmin]; exact this

theorem sqDist_nonneg (a b : List ℚ) : 0 ≤ sqDist a b := by
  unfold sqDist
  induction a generalizing b with
  | nil => simp
  | cons x xs ih =>
    cases b with
    | nil => simp
    | cons y ys =>
      simp only [List.zipWith_cons_cons, List.sum_cons]
      have h1 : (0 : ℚ) ≤ (x - y) * (x - y) := mul_self_nonneg _
      have h2 := ih ys
      linarith

theorem minD_nonneg_of_forall {l : List ℚ} (h : ∀ a ∈ l, 0 ≤ a) (hne : l ≠ []) :
    0 ≤ minD l := by
  have hmem : minD l ∈ l := by
    have := get?_argminIdx l hne
    exact List.get?_mem this
  exact h _ hmem

theorem distances_nonneg (store : Store) (emb : List ℚ) :
    ∀ a ∈ distances store emb, 0 ≤ a := by
  intro a ha
  rcases List.mem_map.mp ha with ⟨e, _, he⟩
  rw [← he]; exact sqDist_nonneg e emb

/-- The comparison carried on squares agrees with the comparison the source
performs on true L2 distances: `sqrtLtQ s t = true ↔ √s < t`. -/
theorem sqrtLtQ_iff_sqrt_lt {s t : ℚ} :
    sqrtLtQ s t = true ↔ Real.sqrt (s : ℝ) < (t : ℝ) := by
  unfold sqrtLtQ
  rw [Bool.and_eq_true, decide_eq_true_iff, decide_eq_true_iff]
  constructor
  · rintro ⟨ht, hlt⟩
    have ht' : (0 : ℝ) < (t : ℝ) := by exact_mod_cast ht
    rw [Real.sqrt_lt' ht', pow_two]
    exact_mod_cast hlt
  · intro h
    have ht' : (0 : ℝ) < (t : ℝ) :=
      lt_of_le_of_lt (Real.sqrt_nonneg _) h
    have ht : 0 < t := by exact_mod_cast ht'
    refine ⟨ht, ?_⟩
    rw [Real.sqrt_lt' ht', pow_two] at h
    exact_mod_cast h

theorem sqrtLtQ_false_iff {s t : ℚ} :
    sqrtLtQ s t = false ↔ (t : ℝ) ≤ Real.sqrt (s : ℝ) := by
  rw [← not_iff_not, Bool.not_eq_false, sqrtLtQ_iff_sqrt_lt, not_le]

/-! ## Claims C1 and C8: the matcher -/

/-- C1 (counterexample).  The claim "recognize_face returns \"Unknown\" if
and only if the snapshot is empty or the minimum L2 distance is ≥ the
threshold" is false as stated: a known identity whose display name is
literally `"Unknown"` is reported by name on a perfect match (distance `0`,
below the threshold `20`, nonempty snapshot), so the function returns
`"Unknown"` although neither disjunct of the right-hand side holds. -/
theorem recognize_face_unknown_iff_counterexample :
    ∃ nm d sid,
      recognize_face ⟨[[0]], ["Unknown"], [7]⟩ 20 [0] = some (nm, d, sid) ∧
      nm = "Unknown" ∧
      ¬((⟨[[0]], ["Unknown"], [7]⟩ : Store).known_encodings = [] ∨
        (20 : ℝ) ≤ Real.sqrt
          ((minD (distances ⟨[[0]], ["Unknown"], [7]⟩ [0]) : ℚ) : ℝ)) := by
  refine ⟨"Unknown", 0, some 7,
    by simp [recognize_face, distances, sqDist, minD, argminIdx, sqrtLtQ], rfl, ?_⟩
  push_neg
  refine ⟨by simp, ?_⟩
  have h0 : minD (distances ⟨[[0]], ["Unknown"], [7]⟩ [0]) = 0 := by
    simp [distances, sqDist, minD]
  rw [h0]
  push_cast
  rw [Real.sqrt_zero]
  norm_num

/-- C1 (amended).  Provided no known identity carries the sentinel display
name `"Unknown"`, `recognize_face` returns `"Unknown"` iff the snapshot is
empty or the minimum L2 distance `√(minD distances)` is ≥ the threshold; on
an empty snapshot the reported (squared) distance is the sentinel `1.0` and
the identity id is absent; on a match the reported identity attains the
minimum distance and the reported distance is that minimum. -/
theorem recognize_face_matcher_contract (store : Store) (T : ℚ) (emb : List ℚ)
    (hn : store.known_names.length = store.known_encodings.length)
    (hi : store.known_ids.length = store.known_encodings.length)
    (hcol : "Unknown" ∉ store.known_names) :
    ∃ nm d sid, recognize_face store T emb = some (nm, d, sid) ∧
      ((nm = "Unknown") ↔ (store.known_encodings = [] ∨
        (T : ℝ) ≤ Real.sqrt ((minD (distances store emb) : ℚ) : ℝ))) ∧
      (store.known_encodings = [] → d = 1 ∧ sid = none) ∧
      (nm ≠ "Unknown" → ∃ k s, k < store.known_encodings.length ∧
        (distances store emb).get? k = some d ∧
        d = minD (distances store emb) ∧
        store.known_names.get? k = some nm ∧
        store.known_ids.get? k = some s ∧ sid = some s) := by
  by_cases hlen : store.known_encodings.length = 0
  · have hemp : store.known_encodings = [] := List.length_eq_zero.mp hlen
    refine ⟨"Unknown", 1, none, by simp [recognize_face, hlen], ?_, ?_, ?_⟩
    · simp [hemp]
    · intro _; exact ⟨rfl, rfl⟩
    · intro h; exact absurd rfl h
  · have hne : store.known_encodings ≠ [] := by
      intro h; rw [h] at hlen; exact hlen rfl
    have hdne : distances store emb ≠ [] := by
      simp [distances, hne]
    have hdlen : (distances store emb).length = store.known_encodings.length := by
      simp [distances]
    have hilt : argminIdx (distances store emb) < (distances store emb).length :=
      argminIdx_lt_length _ hdne
    have hget : (distances store emb).get? (argminIdx (distances store emb)) =
        some (minD (distances store emb)) := get?_argminIdx _ hdne
    by_cases hth : sqrtLtQ (minD (distances store emb)) T = true
    · have hin : argminIdx (distances store emb) < store.known_names.length := by
        rw [hn]; omega
      have hii : argminIdx (distances store emb) < store.known_ids.length := by
        rw [hi]; omega
      obtain ⟨nm, hnm⟩ : ∃ nm,
          store.known_names.get? (argminIdx (distances store emb)) = some nm :=
        ⟨_, List.get?_eq_get hin⟩
      obtain ⟨s, hs⟩ : ∃ s,
          store.known_ids.get? (argminIdx (distances store emb)) = some s :=
        ⟨_, List.get?_eq_get hii⟩
      have hnmem : nm ∈ store.known_names := List.get?_mem hnm
      have hnunk : nm ≠ "Unknown" := by
        intro h; rw [h] at hnmem; exact hcol hnmem
      have hres : recognize_face store T emb =
          some (nm, minD (distances store emb), some s) := by
        simp only [recognize_face, hlen, if_false, hth, if_true, hnm, hs]
      refine ⟨nm, minD (distances store emb), some s, hres, ?_, ?_, ?_⟩
      · have hsqrt : Real.sqrt ((minD (distances store emb) : ℚ) : ℝ) < (T : ℝ) :=
          sqrtLtQ_iff_sqrt_lt.mp hth
        simp [hnunk, hne, not_le.mpr hsqrt]
      · intro h; exact absurd h hne
      · intro _
        exact ⟨argminIdx (distances store emb), s, by omega, hget, rfl, hnm, hs, rfl⟩
    · have hth' : sqrtLtQ (minD (distances store emb)) T = false :=
        Bool.eq_false_iff.mpr hth
      have hres : recognize_face store T emb =
          some ("Unknown", minD (distances store emb), none) := by
        simp only [recognize_face, hlen, if_false, hth', Bool.false_eq_true, if_false]
      refine ⟨"Unknown", minD (distances store emb), none, hres, ?_, ?_, ?_⟩
      · have hge : (T : ℝ) ≤ Real.sqrt ((minD (distances store emb) : ℚ) : ℝ) :=
          sqrtLtQ_false_iff.mp hth'
        simp [hge]
      · intro h; exact absurd h hne
      · intro h; exact absurd rfl h

/-- Witness instantiating `recognize_face_matcher_contract` at the concrete
store `{[[0]], ["alice"], [1]}`, threshold `20`, query `[3]`. -/
theorem recognize_face_matcher_contract_witness :
    ∃ nm d sid,
      recognize_face ⟨[[0]], ["alice"], [1]⟩ 20 [3] = some (nm, d, sid) ∧
      ((nm = "Unknown") ↔ ((⟨[[0]], ["alice"], [1]⟩ : Store).known_encodings = [] ∨
        (20 : ℝ) ≤ Real.sqrt
          ((minD (distances ⟨[[0]], ["alice"], [1]⟩ [3]) : ℚ) : ℝ))) ∧
      ((⟨[[0]], ["alice"], [1]⟩ : Store).known_encodings = [] → d = 1 ∧ sid = none) ∧
      (nm ≠ "Unknown" → ∃ k s,
        k < (⟨[[0]], ["alice"], [1]⟩ : Store).known_encodings.length ∧
        (distances ⟨[[0]], ["alice"], [1]⟩ [3]).get? k = some d ∧
        d = minD (distances ⟨[[0]], ["alice"], [1]⟩ [3]) ∧
        (⟨[[0]], ["alice"], [1]⟩ : Store).known_names.get? k = some nm ∧
        (⟨[[0]], ["alice"], [1]⟩ : Store).known_ids.get? k = some s ∧
        sid = some s) :=
  recognize_face_matcher_contract ⟨[[0]], ["alice"], [1]⟩ 20 [3] rfl rfl (by simp)

/-- C8.  Whenever the match branch is taken (nonempty snapshot, minimum
below the threshold), the reported identity sits at the first (lowest-index)
occurrence of the minimum distance in snapshot iteration order: the index
`k` that owns the reported name and id attains the minimum, and every index
before `k` has a strictly greater distance. -/
theorem recognize_face_tie_break (store : Store) (T : ℚ) (emb : List ℚ)
    (hn : store.known_names.length = store.known_encodings.length)
    (hi : store.known_ids.length = store.known_encodings.length)
    (hne : store.known_encodings ≠ [])
    (hth : sqrtLtQ (minD (distances store emb)) T = true) :
    ∃ nm d sid k s,
      recognize_face store T emb = some (nm, d, sid) ∧
      (distances store emb).get? k = some (minD (distances store emb)) ∧
      d = minD (distances store emb) ∧
      store.known_names.get? k = some nm ∧
      store.known_ids.get? k = some s ∧ sid = some s ∧
      (∀ j < k, ∀ a, (distances store emb).get? j = some a →
        minD (distances store emb) < a) := by
  have hlen : ¬store.known_encodings.length = 0 := by
    intro h; exact hne (List.length_eq_zero.mp h)
  have hdne : distances store emb ≠ [] := by
    simp [distances, hne]
  have hdlen : (distances store emb).length = store.known_encodings.length := by
    simp [distances]
  have hilt : argminIdx (distances store emb) < (distances store emb).length :=
    argminIdx_lt_length _ hdne
  have hget : (distances store emb).get? (argminIdx (distances store emb)) =
      some (minD (distances store emb)) := get?_argminIdx _ hdne
  have hin : argminIdx (distances store emb) < store.known_names.length := by
    rw [hn]; omega
  have hii : argminIdx (distances store emb) < store.known_ids.length := by
    rw [hi]; omega
  obtain ⟨nm, hnm⟩ : ∃ nm,
      store.known_names.get? (argminIdx (distances store emb)) = some nm :=
    ⟨_, List.get?_eq_get hin⟩
  obtain ⟨s, hs⟩ : ∃ s,
      store.known_ids.get? (argminIdx (distances store emb)) = some s :=
    ⟨_, List.get?_eq_get hii⟩
  refine ⟨nm, minD (distances store emb), some s, argminIdx (distances store emb),
    s, ?_, hget, rfl, hnm, hs, rfl, ?_⟩
  · simp only [recognize_face, hlen, if_false, hth, if_true, hnm, hs]
  · intro j hj a ha
    exact argminIdx_first _ j hj a ha

/-- Witness instantiating `recognize_face_tie_break` on a genuine tie: two
encodings at the same (zero) distance from the query; the first one wins. -/
theorem recognize_face_tie_break_witness :
    ∃ nm d sid k s,
      recognize_face ⟨[[0], [0]], ["alice", "bob"], [1, 2]⟩ 20 [0] =
        some (nm, d, sid) ∧
      (distances ⟨[[0], [0]], ["alice", "bob"], [1, 2]⟩ [0]).get? k =
        some (minD (distances ⟨[[0], [0]], ["alice", "bob"], [1, 2]⟩ [0])) ∧
      d = minD (distances ⟨[[0], [0]], ["alice", "bob"], [1, 2]⟩ [0]) ∧
      (⟨[[0], [0]], ["alice", "bob"], [1, 2]⟩ : Store).known_names.get? k =
        some nm ∧
      (⟨[[0], [0]], ["alice", "bob"], [1, 2]⟩ : Store).known_ids.get? k =
        some s ∧ sid = some s ∧
      (∀ j < k, ∀ a,
        (distances ⟨[[0], [0]], ["alice", "bob"], [1, 2]⟩ [0]).get? j = some a →
        minD (distances ⟨[[0], [0]], ["alice", "bob"], [1, 2]⟩ [0]) < a) :=
  recognize_face_tie_break ⟨[[0], [0]], ["alice", "bob"], [1, 2]⟩ 20 [0]
    rfl rfl (by simp) (by simp [sqrtLtQ, distances, sqDist, minD])

/-! ## Claim C5: the attendance sink `DatabaseManager.mark_attendance` -/

/-- A persisted attendance record (`models.AttendanceRecord`); `timestamp`
is in seconds (column default `datetime.utcnow`). -/
structure AttendanceRecord where
  session_id : Nat
  student_id : Nat
  timestamp : ℚ
  confidence_score : ℚ
  status : String
  image_path : Option String
  deriving Repr, DecidableEq

/-- `DatabaseManager.mark_attendance`.  The database table is modelled as
the list of persisted records, `now` is `datetime.utcnow()` in seconds and
`cooldown_minutes` is converted to seconds.  Returns the created record (or
`none` on a duplicate within the cooldown) together with the new table
state. -/
def mark_attendance (db : List AttendanceRecord) (now : ℚ)
    (session_id student_db_id : Nat) (confidence_score : ℚ)
    (status : String) (image_path : Option String) (cooldown_minutes : ℚ) :
    Option AttendanceRecord × List AttendanceRecord :=
  let cooldown_time := now - cooldown_minutes * 60
  match db.find? (fun r =>
      r.session_id == session_id && r.student_id == student_db_id &&
      decide (cooldown_time ≤ r.timestamp)) with
  | some _ => (none, db)
  | none =>
    let record : AttendanceRecord :=
      { session_id := session_id, student_id := student_db_id,
        timestamp := now, confidence_score := confidence_score,
        status := status, image_path := image_path }
    (some record, db ++ [record])

/-- C5.  `mark_attendance` returns `none` iff a record for the same session
and student already exists with timestamp within the last
`cooldown_minutes`; in that case the table is unchanged; otherwise it
creates, persists and returns exactly one new record, timestamped `now` —
so once every matching record is older than the cooldown window a repeat
call records again. -/
theorem mark_attendance_spec (db : List AttendanceRecord) (now : ℚ)
    (sid stid : Nat) (conf : ℚ) (st : String) (img : Option String) (cd : ℚ) :
    ((mark_attendance db now sid stid conf st img cd).1 = none ↔
      ∃ r ∈ db, r.session_id = sid ∧ r.student_id = stid ∧
        now - cd * 60 ≤ r.timestamp) ∧
    ((mark_attendance db now sid stid conf st img cd).1 = none →
      (mark_attendance db now sid stid conf st img cd).2 = db) ∧
    (∀ rec, (mark_attendance db now sid stid conf st img cd).1 = some rec →
      (mark_attendance db now sid stid conf st img cd).2 = db ++ [rec] ∧
      rec.session_id = sid ∧ rec.student_id = stid ∧
      rec.timestamp = now ∧ rec.confidence_score = conf) := by
  have hp : ∀ r : AttendanceRecord,
      (r.session_id == sid && r.student_id == stid &&
        decide (now - cd * 60 ≤ r.timestamp)) = true ↔
      (r.session_id = sid ∧ r.student_id = stid ∧
        now - cd * 60 ≤ r.timestamp) := by
    intro r
    simp [Bool.and_eq_true, and_assoc]
  rcases hf : db.find? (fun r =>
      r.session_id == sid && r.student_id == stid &&
      decide (now - cd * 60 ≤ r.timestamp)) with _ | r
  · have hnone := List.find?_eq_none.mp hf
    refine ⟨?_, ?_, ?_⟩
    · simp only [mark_attendance, hf]
      constructor
      · intro h; cases h
      · rintro ⟨r, hr, h1, h2, h3⟩
        exact absurd ((hp r).mpr ⟨h1, h2, h3⟩) (hnone r hr)
    · intro h
      simp only [mark_attendance, hf] at h
      cases h
    · intro rec hrec
      simp only [mark_attendance, hf] at hrec ⊢
      obtain rfl : _ = rec := Option.some_inj.mp hrec
      exact ⟨rfl, rfl, rfl, rfl, rfl⟩
  · have hmem : r ∈ db := List.mem_of_find?_eq_some hf
    have hpr := List.find?_some hf
    have hr := (hp r).mp (by simpa using hpr)
    refine ⟨?_, ?_, ?_⟩
    · simp only [mark_attendance, hf]
      exact ⟨fun _ => ⟨r, hmem, hr⟩, fun _ => trivial⟩
    · intro _
      simp only [mark_attendance, hf]
    · intro rec hrec
      simp only [mark_attendance, hf] at hrec
      cases hrec

/-- Witness instantiating `mark_attendance_spec`: one prior record for
student `3` in session `1` stamped at time `100`; a call at time `110` with
the default 5-minute cooldown. -/
theorem mark_attendance_spec_witness :
    ((mark_attendance [⟨1, 3, 100, 0, "present", none⟩] 110 1 3 0 "present"
        none 5).1 = none ↔
      ∃ r ∈ [(⟨1, 3, 100, 0, "present", none⟩ : AttendanceRecord)],
        r.session_id = 1 ∧ r.student_id = 3 ∧
        (110 : ℚ) - 5 * 60 ≤ r.timestamp) ∧
    ((mark_attendance [⟨1, 3, 100, 0, "present", none⟩] 110 1 3 0 "present"
        none 5).1 = none →
      (mark_attendance [⟨1, 3, 100, 0, "present", none⟩] 110 1 3 0 "present"
        none 5).2 = [⟨1, 3, 100, 0, "present", none⟩]) ∧
    (∀ rec, (mark_attendance [⟨1, 3, 100, 0, "present", none⟩] 110 1 3 0
        "present" none 5).1 = some rec →
      (mark_attendance [⟨1, 3, 100, 0, "present", none⟩] 110 1 3 0 "present"
        none 5).2 = [⟨1, 3, 100, 0, "present", none⟩] ++ [rec] ∧
      rec.session_id = 1 ∧ rec.student_id = 3 ∧
      rec.timestamp = 110 ∧ rec.confidence_score = 0) :=
  mark_attendance_spec [⟨1, 3, 100, 0, "present", none⟩] 110 1 3 0 "present"
    none 5

/-! ## Claim C10: the two enrollment quality-score computations -/

/-- Quality score of `capture_enrollment_photo_with_quality`
(`recognition_service.py` lines 546-556), transcribed from that site:
`face_area / frame_area`, `size_quality = min(1, max(0, (ratio-0.05)/0.35))`,
`det_score` defaulting to `0.9` when the face has none, and
`size_quality * 0.5 + detection_score * 0.5`. -/
def quality_score_capture (x1 y1 x2 y2 frame_h frame_w : ℤ)
    (det_score : Option ℚ) : ℚ :=
  let face_area : ℤ := (x2 - x1) * (y2 - y1)
  let frame_area : ℤ := frame_h * frame_w
  let size_ratio : ℚ := (face_area : ℚ) / (frame_area : ℚ)
  let size_quality : ℚ := min 1 (max 0 ((size_ratio - 5 / 100) / (35 / 100)))
  let detection_score : ℚ := match det_score with | some s => s | none => 9 / 10
  size_quality * (1 / 2) + detection_score * (1 / 2)

/-- Quality score of the enrollment preview stream
(`generate_enrollment_preview`, lines 613-620), transcribed from that
site. -/
def quality_score_preview (x1 y1 x2 y2 frame_h frame_w : ℤ)
    (det_score : Option ℚ) : ℚ :=
  let face_area : ℤ := (x2 - x1) * (y2 - y1)
  let frame_area : ℤ := frame_h * frame_w
  let size_ratio : ℚ := (face_area : ℚ) / (frame_area : ℚ)
  let size_quality : ℚ := min 1 (max 0 ((size_ratio - 5 / 100) / (35 / 100)))
  let detection_score : ℚ := match det_score with | some s => s | none => 9 / 10
  size_quality * (1 / 2) + detection_score * (1 / 2)

/-- C10.  The enrollment photo capture and the enrollment preview stream
compute the identical quality score, and the score lies in `[0, 1]`
whenever the detection score does (in particular when it is absent and
defaults to `0.9`). -/
theorem quality_score_capture_eq_preview (x1 y1 x2 y2 fh fw : ℤ)
    (det : Option ℚ) (hdet : ∀ s, det = some s → 0 ≤ s ∧ s ≤ 1) :
    quality_score_capture x1 y1 x2 y2 fh fw det =
      quality_score_preview x1 y1 x2 y2 fh fw det ∧
    0 ≤ quality_score_capture x1 y1 x2 y2 fh fw det ∧
    quality_score_capture x1 y1 x2 y2 fh fw det ≤ 1 := by
  refine ⟨rfl, ?_, ?_⟩ <;>
  · unfold quality_score_capture
    have hsq0 : (0 : ℚ) ≤ min 1 (max 0
        (((((x2 - x1) * (y2 - y1) : ℤ) : ℚ) / ((fh * fw : ℤ) : ℚ) - 5 / 100) /
          (35 / 100))) := le_min (by norm_num) (le_max_left _ _)
    have hsq1 : min 1 (max 0
        (((((x2 - x1) * (y2 - y1) : ℤ) : ℚ) / ((fh * fw : ℤ) : ℚ) - 5 / 100) /
          (35 / 100))) ≤ 1 := min_le_left _ _
    have hd : 0 ≤ (match det with | some s => s | none => (9 : ℚ) / 10) ∧
        (match det with | some s => s | none => (9 : ℚ) / 10) ≤ 1 := by
      cases det with
      | none => norm_num
      | some s => exact hdet s rfl
    simp only
    nlinarith [hsq0, hsq1, hd.1, hd.2]

/-- Witness instantiating `quality_score_capture_eq_preview` at a concrete
bounding box in a 640 by 480 frame with no detection score. -/
theorem quality_score_capture_eq_preview_witness :
    quality_score_capture 0 0 100 100 480 640 none =
      quality_score_preview 0 0 100 100 480 640 none ∧
    0 ≤ quality_score_capture 0 0 100 100 480 640 none ∧
    quality_score_capture 0 0 100 100 480 640 none ≤ 1 :=
  quality_score_capture_eq_preview 0 0 100 100 480 640 none
    (fun _ h => nomatch h)

/-! ## Claim C7: `process_frame` and the detection stride -/

/-- A face produced by the detection capability (`self.app.get(frame)`). -/
structure Face where
  bbox : Int × Int × Int × Int
  embedding : List ℚ
  det_score : Option ℚ
  deriving Repr, DecidableEq

/-- One entry of the `detections` list built by `process_frame`
(`confidence_score` is a copy of the distance, as in the source). -/
structure Detection where
  name : String
  distance : ℚ
  bbox : Int × Int × Int × Int
  student_db_id : Option Nat
  confidence_score : ℚ
  deriving Repr, DecidableEq

/-- The detection dict `process_frame` builds for one face: the result of
`recognize_face` on the face embedding plus the face bounding box. -/
def detectionOf (store : Store) (threshold : ℚ) (f : Face) : Option Detection :=
  (recognize_face store threshold f.embedding).map (fun r =>
    { name := r.1, distance := r.2.1, bbox := f.bbox,
      student_db_id := r.2.2, confidence_score := r.2.1 })

/-- Option traversal: builds the list of results, failing as soon as one
element fails (a Python loop that raises on the first bad element). -/
def traverseOpt {α β : Type} (f : α → Option β) : List α → Option (List β)
  | [] => some []
  | x :: xs =>
    match f x, traverseOpt f xs with
    | some b, some bs => some (b :: bs)
    | _, _ => none

/-- `FaceRecognitionService.process_frame`, restricted to its recognition
state (drawing and FPS bookkeeping are pixel side effects).  `freshFaces`
is what `self.app.get(frame)` would return on this frame.  Result:
`(ranDetector, frame_counter + 1, new last_faces, detections)`. -/
def process_frame (store : Store) (threshold : ℚ) (process_every : Nat)
    (frame_counter : Nat) (last_faces : List Face) (detect_faces : Bool)
    (freshFaces : List Face) :
    Option (Bool × Nat × List Face × List Detection) :=
  let ranDetector := detect_faces && frame_counter % process_every == 0
  let faces := if ranDetector then freshFaces else last_faces
  (traverseOpt (detectionOf store threshold) faces).map (fun dets =>
    (ranDetector, frame_counter + 1, faces, dets))

theorem recognize_face_isSome (store : Store) (T : ℚ) (emb : List ℚ)
    (hn : store.known_names.length = store.known_encodings.length)
    (hi : store.known_ids.length = store.known_encodings.length) :
    (recognize_face store T emb).isSome := by
  by_cases hlen : store.known_encodings.length = 0
  · simp [recognize_face, hlen]
  · have hne : store.known_encodings ≠ [] := by
      intro h; rw [h] at hlen; exact hlen rfl
    have hdne : distances store emb ≠ [] := by simp [distances, hne]
    have hdlen : (distances store emb).length = store.known_encodings.length := by
      simp [distances]
    have hilt := argminIdx_lt_length _ hdne
    have hin : argminIdx (distances store emb) < store.known_names.length := by
      rw [hn]; omega
    have hii : argminIdx (distances store emb) < store.known_ids.length := by
      rw [hi]; omega
    obtain ⟨nm, hnm⟩ : ∃ nm,
        store.known_names.get? (argminIdx (distances store emb)) = some nm :=
      ⟨_, List.get?_eq_get hin⟩
    obtain ⟨s, hs⟩ : ∃ s,
        store.known_ids.get? (argminIdx (distances store emb)) = some s :=
      ⟨_, List.get?_eq_get hii⟩
    by_cases hth : sqrtLtQ (minD (distances store emb)) T = true
    · have hres : recognize_face store T emb =
          some (nm, minD (distances store emb), some s) := by
        simp only [recognize_face, hlen, if_false, hth, if_true, hnm, hs]
      rw [hres]; rfl
    · have hth' : sqrtLtQ (minD (distances store emb)) T = false :=
        Bool.eq_false_iff.mpr hth
      have hres : recognize_face store T emb =
          some ("Unknown", minD (distances store emb), none) := by
        simp only [recognize_face, hlen, if_false, hth', Bool.false_eq_true]
      rw [hres]; rfl

theorem traverseOpt_isSome_of_forall {α β : Type} (f : α → Option β) :
    ∀ l : List α, (∀ a ∈ l, (f a).isSome) → (traverseOpt f l).isSome := by
  intro l
  induction l with
  | nil => intro _; simp [traverseOpt]
  | cons x xs ih =>
    intro h
    have hx := h x (by simp)
    rcases Option.isSome_iff_exists.mp hx with ⟨b, hb⟩
    have hxs := ih (fun a ha => h a (by simp [ha]))
    rcases Option.isSome_iff_exists.mp hxs with ⟨bs, hbs⟩
    simp [traverseOpt, hb, hbs]

/-- C7.  `process_frame` runs the detector exactly on the calls where the
frame counter is a multiple of the stride (and detection is enabled), the
counter increments by exactly one on every call, and on skipped calls the
returned detections are exactly those computed from the cached
`last_faces`, while on processed calls they come from the fresh detector
output which also becomes the new cache. -/
theorem process_frame_stride_spec (store : Store) (T : ℚ) (N counter : Nat)
    (last : List Face) (detect : Bool) (fresh : List Face)
    (hn : store.known_names.length = store.known_encodings.length)
    (hi : store.known_ids.length = store.known_encodings.length) :
    ∃ ran counter2 faces2 dets,
      process_frame store T N counter last detect fresh =
        some (ran, counter2, faces2, dets) ∧
      counter2 = counter + 1 ∧
      (ran = true ↔ (detect = true ∧ N ∣ counter)) ∧
      (ran = false → faces2 = last ∧
        traverseOpt (detectionOf store T) last = some dets) ∧
      (ran = true → faces2 = fresh ∧
        traverseOpt (detectionOf store T) fresh = some dets) := by
  have hsome : ∀ faces : List Face,
      ((traverseOpt (detectionOf store T) faces).isSome) := by
    intro faces
    refine traverseOpt_isSome_of_forall _ faces (fun f _ => ?_)
    have := recognize_face_isSome store T f.embedding hn hi
    rcases Option.isSome_iff_exists.mp this with ⟨r, hr⟩
    simp [detectionOf, hr]
  have hmod : (counter % N == 0) = true ↔ N ∣ counter := by
    rw [beq_iff_eq]
    constructor
    · exact Nat.dvd_of_mod_eq_zero
    · rintro ⟨c, rfl⟩
      exact Nat.mul_mod_right N c
  by_cases hran : (detect && (counter % N == 0)) = true
  · rcases Option.isSome_iff_exists.mp (hsome fresh) with ⟨dets, hdets⟩
    refine ⟨true, counter + 1, fresh, dets, ?_, rfl, ?_, ?_, ?_⟩
    · simp [process_frame, hran, hdets]
    · constructor
      · intro _
        have hran2 : detect = true ∧ (counter % N == 0) = true := by
          simpa using hran
        exact ⟨hran2.1, hmod.mp hran2.2⟩
      · intro _; rfl
    · intro h; cases h
    · intro _; exact ⟨rfl, hdets⟩
  · rcases Option.isSome_iff_exists.mp (hsome last) with ⟨dets, hdets⟩
    have hran' : (detect && (counter % N == 0)) = false :=
      Bool.eq_false_iff.mpr hran
    refine ⟨false, counter + 1, last, dets, ?_, rfl, ?_, ?_, ?_⟩
    · simp [process_frame, hran', hdets]
    · constructor
      · intro h; cases h
      · rintro ⟨h1, h2⟩
        have h2' : (counter % N == 0) = true := hmod.mpr h2
        have : (detect && (counter % N == 0)) = true := by simp [h1, h2']
        exact absurd this hran
    · intro _; exact ⟨rfl, hdets⟩
    · intro h; cases h

/-- Witness instantiating `process_frame_stride_spec` at stride `2` and
frame counter `1` (a skipped call). -/
theorem process_frame_stride_spec_witness :
    ∃ ran counter2 faces2 dets,
      process_frame ⟨[[0]], ["alice"], [1]⟩ 20 2 1 [] true [] =
        some (ran, counter2, faces2, dets) ∧
      counter2 = 1 + 1 ∧
      (ran = true ↔ (true = true ∧ 2 ∣ 1)) ∧
      (ran = false → faces2 = [] ∧
        traverseOpt (detectionOf ⟨[[0]], ["alice"], [1]⟩ 20) [] = some dets) ∧
      (ran = true → faces2 = [] ∧
        traverseOpt (detectionOf ⟨[[0]], ["alice"], [1]⟩ 20) [] = some dets) :=
  process_frame_stride_spec ⟨[[0]], ["alice"], [1]⟩ 20 2 1 [] true [] rfl rfl

/-! ## The streaming loop `generate_frames` (claims C2, C3, C4, C6)

One iteration of the `while self.is_recognition_streaming()` loop is a pure
step over the loop state (consecutive error counter, in-memory cooldown
map), driven by an `IterInput` describing what the environment does during
that iteration: the values the four shared-flag reads observe, whether the
captured frame was usable, the detections `process_frame` produced, the
wall-clock time and the attendance sink's response.  The step emits a trace
of observable events. -/

/-- Response of the external attendance sink
(`DatabaseManager.mark_attendance`) for a student during one iteration:
a new record, `None` (duplicate within the durable cooldown), or a raised
database error. -/
inductive SinkResult
  | recorded
  | duplicate
  | sinkError
  deriving Repr, DecidableEq

/-- Observable events of one streaming session. -/
inductive Ev
  | capture
  | sinkCall (sid : Nat) (conf : ℚ)
  | yieldFrame
  | terminalError
  | stopCam
  deriving Repr, DecidableEq

def isCapture : Ev → Bool
  | Ev.capture => true
  | _ => false

def isSinkCall : Ev → Bool
  | Ev.sinkCall _ _ => true
  | _ => false

def isYield : Ev → Bool
  | Ev.yieldFrame => true
  | _ => false

def isTerminalError : Ev → Bool
  | Ev.terminalError => true
  | _ => false

def isStopCam : Ev → Bool
  | Ev.stopCam => true
  | _ => false

def countEv (p : Ev → Bool) (evs : List Ev) : Nat :=
  (evs.filter p).length

/-- The `recent_detections` dict: student db id to last-marked time. -/
abbrev RecentMap := List (Nat × ℚ)

def lookupRecent (m : RecentMap) (sid : Nat) : Option ℚ :=
  (m.find? (fun p => p.1 == sid)).map (fun p => p.2)

/-- `recent_detections[student_db_id] = now`: dict assignment. -/
def insertRecent (m : RecentMap) (sid : Nat) (t : ℚ) : RecentMap :=
  (sid, t) :: m.filter (fun p => p.1 != sid)

/-- Python truthiness of an `Optional[int]`: `None` and `0` are falsy. -/
def truthyId : Option Nat → Bool
  | none => false
  | some n => n != 0

/-- The body of `for detection in detections:` (lines 306-340) for one
detection: skipped when the name is `"Unknown"` or the id is falsy; the
in-memory cooldown suppresses silently unless more than 30 seconds have
passed; otherwise the sink is called exactly once and the cooldown entry is
written only when the sink confirms a record (sink errors are caught and
absorbed).  Returns the emitted sink-call events and the updated map. -/
def offerDetection (sink : Nat → SinkResult) (now : ℚ) (recent : RecentMap)
    (d : Detection) : List Ev × RecentMap :=
  match d.student_db_id with
  | none => ([], recent)
  | some sid =>
    if d.name != "Unknown" && sid != 0 then
      let proceed :=
        match lookupRecent recent sid with
        | none => true
        | some last => decide (30 < now - last)
      if proceed then
        match sink sid with
        | SinkResult.recorded =>
          ([Ev.sinkCall sid d.confidence_score], insertRecent recent sid now)
        | SinkResult.duplicate =>
          ([Ev.sinkCall sid d.confidence_score], recent)
        | SinkResult.sinkError =>
          ([Ev.sinkCall sid d.confidence_score], recent)
      else ([], recent)
    else ([], recent)

/-- The detection loop folded over the whole detections list, threading the
cooldown map left to right as the source does. -/
def processDetections (sink : Nat → SinkResult) (now : ℚ) :
    RecentMap → List Detection → List Ev × RecentMap
  | recent, [] => ([], recent)
  | recent, d :: ds =>
    let hd := offerDetection sink now recent d
    let tl := processDetections sink now hd.2 ds
    (hd.1 ++ tl.1, tl.2)

/-- The guarded auto-mark block (line 304):
`if auto_mark_attendance and session_id and len(detections) > 0`. -/
def attendanceBlock (auto : Bool) (session_id : Option Nat)
    (sink : Nat → SinkResult) (now : ℚ) (recent : RecentMap)
    (dets : List Detection) : List Ev × RecentMap :=
  if auto && truthyId session_id && decide (0 < dets.length) then
    processDetections sink now recent dets
  else
    ([], recent)

/-- What the environment does during one loop iteration.  `flag0` is the
value the `while self.is_recognition_streaming()` condition reads, `flag1`
the re-check at the top of the body, `flag2` the check before the yield and
`flag3` the check after the yield. -/
structure IterInput where
  flag0 : Bool
  flag1 : Bool
  flag2 : Bool
  flag3 : Bool
  frameOk : Bool
  detections : List Detection
  now : ℚ
  sink : Nat → SinkResult
  encodeOk : Bool

/-- Whether the iteration ends with `continue`/fall-through (`next`) or
leaves the loop (`exit`, via the while condition or a `break`). -/
inductive Outcome
  | next
  | exit
  deriving Repr, DecidableEq

structure StepResult where
  events : List Ev
  errors : Nat
  recent : RecentMap
  outcome : Outcome

/-- `max_consecutive_errors` of `generate_frames`. -/
def maxConsecutiveErrors : Nat := 5

/-- One iteration of the `generate_frames` loop (lines 285-394): flag
checks, capture, the empty-frame skip (which does not touch the error
counter), the auto-mark block, JPEG encoding (whose failure increments the
counter and at the ceiling emits the terminal error and breaks), the reset
of the counter on success, and the pre/post yield flag checks. -/
def generateFramesStep (auto : Bool) (session_id : Option Nat)
    (errors : Nat) (recent : RecentMap) (i : IterInput) : StepResult :=
  if !i.flag0 then
    { events := [], errors := errors, recent := recent, outcome := Outcome.exit }
  else if !i.flag1 then
    { events := [], errors := errors, recent := recent, outcome := Outcome.exit }
  else if !i.frameOk then
    { events := [Ev.capture], errors := errors, recent := recent,
      outcome := Outcome.next }
  else
    let ab := attendanceBlock auto session_id i.sink i.now recent i.detections
    if !i.encodeOk then
      if maxConsecutiveErrors ≤ errors + 1 then
        { events := Ev.capture :: ab.1 ++ [Ev.terminalError],
          errors := errors + 1, recent := ab.2, outcome := Outcome.exit }
      else
        { events := Ev.capture :: ab.1, errors := errors + 1, recent := ab.2,
          outcome := Outcome.next }
    else
      if !i.flag2 then
        { events := Ev.capture :: ab.1, errors := 0, recent := ab.2,
          outcome := Outcome.exit }
      else if !i.flag3 then
        { events := Ev.capture :: ab.1 ++ [Ev.yieldFrame], errors := 0,
          recent := ab.2, outcome := Outcome.exit }
      else
        { events := Ev.capture :: ab.1 ++ [Ev.yieldFrame], errors := 0,
          recent := ab.2, outcome := Outcome.next }

/-- The loop run over a finite schedule of iteration inputs.  Leaving via
`exit` appends the cleanup (lines 396-399: the camera is stopped); an
exhausted schedule means the session is still running. -/
def generateFramesRun (auto : Bool) (session_id : Option Nat)
    (errors : Nat) (recent : RecentMap) : List IterInput → List Ev
  | [] => []
  | i :: rest =>
    let s := generateFramesStep auto session_id errors recent i
    match s.outcome with
    | Outcome.exit => s.events ++ [Ev.stopCam]
    | Outcome.next =>
      s.events ++ generateFramesRun auto session_id s.errors s.recent rest

/-- Outcome of one iteration as a function of the error counter, the four
flag reads, the frame status and the encode status alone (claim C4: the
sink response never influences whether the loop continues). -/
def stepOutcome (errors : Nat) (f0 f1 frameOk encodeOk f2 f3 : Bool) :
    Outcome :=
  if !f0 then Outcome.exit
  else if !f1 then Outcome.exit
  else if !frameOk then Outcome.next
  else if !encodeOk then
    (if maxConsecutiveErrors ≤ errors + 1 then Outcome.exit else Outcome.next)
  else if !f2 then Outcome.exit
  else if !f3 then Outcome.exit
  else Outcome.next

/-- Error counter after one iteration, again independent of the sink. -/
def stepErrors (errors : Nat) (f0 f1 frameOk encodeOk : Bool) : Nat :=
  if !f0 then errors
  else if !f1 then errors
  else if !frameOk then errors
  else if !encodeOk then errors + 1
  else 0

/-- An iteration whose only failure is the JPEG encode step. -/
def encodeFailIter (i : IterInput) : Prop :=
  i.flag0 = true ∧ i.flag1 = true ∧ i.frameOk = true ∧ i.encodeOk = false

/-- An iteration that observes the shared flag already cleared at every
checkpoint. -/
def flagDown (i : IterInput) : Prop :=
  i.flag0 = false ∧ i.flag1 = false ∧ i.flag2 = false ∧ i.flag3 = false

/-- A concrete iteration in which the camera returns an empty frame. -/
def emptyFrameInput : IterInput :=
  { flag0 := true, flag1 := true, flag2 := true, flag3 := true,
    frameOk := false, detections := [], now := 0,
    sink := fun _ => SinkResult.duplicate, encodeOk := true }

/-- A concrete iteration in which only the JPEG encode step fails. -/
def encodeFailInput : IterInput :=
  { flag0 := true, flag1 := true, flag2 := true, flag3 := true,
    frameOk := true, detections := [], now := 0,
    sink := fun _ => SinkResult.duplicate, encodeOk := false }

/-- A concrete iteration that observes the stop flag everywhere. -/
def stopFlagInput : IterInput :=
  { flag0 := false, flag1 := false, flag2 := false, flag3 := false,
    frameOk := true, detections := [], now := 0,
    sink := fun _ => SinkResult.duplicate, encodeOk := true }

/-! ### Helper lemmas about event traces -/

theorem countEv_append (p : Ev → Bool) (l1 l2 : List Ev) :
    countEv p (l1 ++ l2) = countEv p l1 + countEv p l2 := by
  simp [countEv, List.filter_append]

theorem countEv_cons (p : Ev → Bool) (e : Ev) (l : List Ev) :
    countEv p (e :: l) = (if p e then 1 else 0) + countEv p l := by
  by_cases h : p e <;> simp [countEv, List.filter_cons, h, Nat.add_comm]

theorem countEv_nil (p : Ev → Bool) : countEv p [] = 0 := rfl

theorem countEv_singleton (p : Ev → Bool) (e : Ev) :
    countEv p [e] = if p e then 1 else 0 := by
  by_cases h : p e <;> simp [countEv, h]

theorem countEv_eq_zero {p : Ev → Bool} {l : List Ev}
    (h : ∀ e ∈ l, p e = false) : countEv p l = 0 := by
  induction l with
  | nil => rfl
  | cons x xs ih =>
    rw [countEv_cons, h x (by simp), if_neg (by simp), Nat.zero_add]
    exact ih (fun e he => h e (by simp [he]))

theorem countEv_le_length (p : Ev → Bool) (l : List Ev) :
    countEv p l ≤ l.length := by
  simpa [countEv] using List.length_filter_le p l

/-- Shape of the events one detection can emit: nothing, or exactly one
sink call carrying the detection's id and confidence. -/
theorem offerDetection_events_shape (sink : Nat → SinkResult) (now : ℚ)
    (recent : RecentMap) (d : Detection) :
    (offerDetection sink now recent d).1 = [] ∨
    ∃ sid, d.student_db_id = some sid ∧
      (offerDetection sink now recent d).1 =
        [Ev.sinkCall sid d.confidence_score] := by
  unfold offerDetection
  cases hsid : d.student_db_id with
  | none => exact Or.inl rfl
  | some sid =>
    by_cases hg : (d.name != "Unknown" && sid != 0) = true
    · simp only [hg, if_true]
      split
      · cases hs : sink sid <;> simp [hs, hsid]
      · left; simp
    · have hg' : (d.name != "Unknown" && sid != 0) = false :=
        Bool.eq_false_iff.mpr hg
      simp only [hg', Bool.false_eq_true, if_false]
      left; simp

theorem offerDetection_events_sinkCall (sink : Nat → SinkResult) (now : ℚ)
    (recent : RecentMap) (d : Detection) :
    ∀ e ∈ (offerDetection sink now recent d).1, isSinkCall e = true := by
  intro e he
  rcases offerDetection_events_shape sink now recent d with h | ⟨sid, _, h⟩ <;>
    rw [h] at he
  · cases he
  · rcases List.mem_singleton.mp he with rfl
    rfl

theorem offerDetection_length_le_one (sink : Nat → SinkResult) (now : ℚ)
    (recent : RecentMap) (d : Detection) :
    (offerDetection sink now recent d).1.length ≤ 1 := by
  rcases offerDetection_events_shape sink now recent d with h | ⟨sid, _, h⟩ <;>
    simp [h]

theorem offerDetection_unknown (sink : Nat → SinkResult) (now : ℚ)
    (recent : RecentMap) (d : Detection) (h : d.name = "Unknown") :
    offerDetection sink now recent d = ([], recent) := by
  unfold offerDetection
  cases hsid : d.student_db_id with
  | none => rfl
  | some sid => simp [h]

theorem offerDetection_no_id (sink : Nat → SinkResult) (now : ℚ)
    (recent : RecentMap) (d : Detection) (h : d.student_db_id = none) :
    offerDetection sink now recent d = ([], recent) := by
  unfold offerDetection
  rw [h]

theorem offerDetection_cooldown_suppressed (sink : Nat → SinkResult)
    (now : ℚ) (recent : RecentMap) (d : Detection) (sid : Nat) (last : ℚ)
    (hsid : d.student_db_id = some sid)
    (hlast : lookupRecent recent sid = some last)
    (hrecent : now - last ≤ 30) :
    offerDetection sink now recent d = ([], recent) := by
  unfold offerDetection
  rw [hsid]
  by_cases hg : (d.name != "Unknown" && sid != 0) = true
  · simp only [hg, if_true, hlast]
    rw [if_neg]
    simp only [decide_eq_true_eq]
    exact not_lt.mpr hrecent
  · have hg' : (d.name != "Unknown" && sid != 0) = false :=
      Bool.eq_false_iff.mpr hg
    simp [hg']

theorem offerDetection_recent_update (sink : Nat → SinkResult) (now : ℚ)
    (recent : RecentMap) (d : Detection) :
    (offerDetection sink now recent d).2 = recent ∨
    ∃ sid, d.student_db_id = some sid ∧ sink sid = SinkResult.recorded ∧
      (offerDetection sink now recent d).2 = insertRecent recent sid now := by
  unfold offerDetection
  cases hsid : d.student_db_id with
  | none => exact Or.inl rfl
  | some sid =>
    by_cases hg : (d.name != "Unknown" && sid != 0) = true
    · simp only [hg, if_true]
      split
      · cases hs : sink sid <;> simp [hs, hsid]
      · left; simp
    · have hg' : (d.name != "Unknown" && sid != 0) = false :=
        Bool.eq_false_iff.mpr hg
      simp [hg']

theorem offerDetection_not_recorded (sink : Nat → SinkResult) (now : ℚ)
    (recent : RecentMap) (d : Detection) (sid : Nat)
    (hsid : d.student_db_id = some sid)
    (hs : sink sid ≠ SinkResult.recorded) :
    (offerDetection sink now recent d).2 = recent := by
  rcases offerDetection_recent_update sink now recent d with h | ⟨sid2, hsid2, hrec, _⟩
  · exact h
  · rw [hsid] at hsid2
    cases Option.some_inj.mp hsid2
    exact absurd hrec hs

theorem processDetections_events_sinkCall (sink : Nat → SinkResult) (now : ℚ) :
    ∀ (dets : List Detection) (recent : RecentMap),
      ∀ e ∈ (processDetections sink now recent dets).1, isSinkCall e = true := by
  intro dets
  induction dets with
  | nil => intro recent e he; cases he
  | cons d ds ih =>
    intro recent e he
    simp only [processDetections, List.mem_append] at he
    rcases he with he | he
    · exact offerDetection_events_sinkCall sink now recent d e he
    · exact ih _ e he

theorem processDetections_count_le (sink : Nat → SinkResult) (now : ℚ) :
    ∀ (dets : List Detection) (recent : RecentMap),
      (processDetections sink now recent dets).1.length ≤ dets.length := by
  intro dets
  induction dets with
  | nil => intro recent; simp [processDetections]
  | cons d ds ih =>
    intro recent
    simp only [processDetections, List.length_append, List.length_cons]
    have h1 := offerDetection_length_le_one sink now recent d
    have h2 := ih (offerDetection sink now recent d).2
    omega

theorem attendanceBlock_events_sinkCall (auto : Bool) (sess : Option Nat)
    (sink : Nat → SinkResult) (now : ℚ) (recent : RecentMap)
    (dets : List Detection) :
    ∀ e ∈ (attendanceBlock auto sess sink now recent dets).1,
      isSinkCall e = true := by
  intro e he
  unfold attendanceBlock at he
  split at he
  · exact processDetections_events_sinkCall sink now dets recent e he
  · cases he

theorem sinkCall_only (e : Ev) (h : isSinkCall e = true) :
    isTerminalError e = false ∧ isYield e = false ∧ isCapture e = false ∧
    isStopCam e = false := by
  cases e <;> simp_all [isSinkCall, isTerminalError, isYield, isCapture,
    isStopCam]

/-- C3.  Inside the streaming loop each detection triggers at most one sink
call; detections named `"Unknown"` or lacking an id trigger none; an
in-memory cooldown entry at most 30 seconds old suppresses the sink call
entirely; and over a whole frame the number of sink calls never exceeds the
number of detections. -/
theorem attendance_gate_sink_calls (sink : Nat → SinkResult) (now : ℚ) :
    (∀ recent d, (offerDetection sink now recent d).1.length ≤ 1) ∧
    (∀ recent d, d.name = "Unknown" →
      offerDetection sink now recent d = ([], recent)) ∧
    (∀ recent d, d.student_db_id = none →
      offerDetection sink now recent d = ([], recent)) ∧
    (∀ recent d sid last, d.student_db_id = some sid →
      lookupRecent recent sid = some last → now - last ≤ 30 →
      offerDetection sink now recent d = ([], recent)) ∧
    (∀ auto sess recent dets,
      countEv isSinkCall (attendanceBlock auto sess sink now recent dets).1 ≤
        dets.length) := by
  refine ⟨fun recent d => offerDetection_length_le_one sink now recent d,
    fun recent d h => offerDetection_unknown sink now recent d h,
    fun recent d h => offerDetection_no_id sink now recent d h,
    fun recent d sid last h1 h2 h3 =>
      offerDetection_cooldown_suppressed sink now recent d sid last h1 h2 h3,
    fun auto sess recent dets => ?_⟩
  calc countEv isSinkCall (attendanceBlock auto sess sink now recent dets).1
      ≤ (attendanceBlock auto sess sink now recent dets).1.length :=
        countEv_le_length _ _
    _ ≤ dets.length := by
        unfold attendanceBlock
        split
        · exact processDetections_count_le sink now dets recent
        · simp

/-- Witness instantiating `attendance_gate_sink_calls`: an "Unknown"
detection emits no sink call. -/
theorem attendance_gate_sink_calls_witness :
    offerDetection (fun _ => SinkResult.recorded) 0 []
      ⟨"Unknown", 1, (0, 0, 0, 0), some 4, 1⟩ = ([], []) :=
  (attendance_gate_sink_calls (fun _ => SinkResult.recorded) 0).2.1 []
    ⟨"Unknown", 1, (0, 0, 0, 0), some 4, 1⟩ rfl

/-! ### Step characterisation lemmas -/

theorem step_flag0_false (auto : Bool) (sess : Option Nat) (e : Nat)
    (r : RecentMap) (i : IterInput) (h0 : i.flag0 = false) :
    generateFramesStep auto sess e r i =
      { events := [], errors := e, recent := r, outcome := Outcome.exit } := by
  simp [generateFramesStep, h0]

theorem step_flag1_false (auto : Bool) (sess : Option Nat) (e : Nat)
    (r : RecentMap) (i : IterInput) (h0 : i.flag0 = true)
    (h1 : i.flag1 = false) :
    generateFramesStep auto sess e r i =
      { events := [], errors := e, recent := r, outcome := Outcome.exit } := by
  simp [generateFramesStep, h0, h1]

theorem step_emptyFrame (auto : Bool) (sess : Option Nat) (e : Nat)
    (r : RecentMap) (i : IterInput) (h0 : i.flag0 = true)
    (h1 : i.flag1 = true) (hf : i.frameOk = false) :
    generateFramesStep auto sess e r i =
      { events := [Ev.capture], errors := e, recent := r,
        outcome := Outcome.next } := by
  simp [generateFramesStep, h0, h1, hf]

theorem step_encodeFail_below (auto : Bool) (sess : Option Nat) (e : Nat)
    (r : RecentMap) (i : IterInput) (h : encodeFailIter i) (hlt : e + 1 < 5) :
    generateFramesStep auto sess e r i =
      { events := Ev.capture ::
          (attendanceBlock auto sess i.sink i.now r i.detections).1,
        errors := e + 1,
        recent := (attendanceBlock auto sess i.sink i.now r i.detections).2,
        outcome := Outcome.next } := by
  obtain ⟨h0, h1, hf, he⟩ := h
  simp [generateFramesStep, h0, h1, hf, he, maxConsecutiveErrors,
    Nat.not_le.mpr hlt]

theorem step_encodeFail_ceiling (auto : Bool) (sess : Option Nat) (e : Nat)
    (r : RecentMap) (i : IterInput) (h : encodeFailIter i) (hge : 5 ≤ e + 1) :
    generateFramesStep auto sess e r i =
      { events := Ev.capture ::
          (attendanceBlock auto sess i.sink i.now r i.detections).1 ++
          [Ev.terminalError],
        errors := e + 1,
        recent := (attendanceBlock auto sess i.sink i.now r i.detections).2,
        outcome := Outcome.exit } := by
  obtain ⟨h0, h1, hf, he⟩ := h
  simp [generateFramesStep, h0, h1, hf, he, maxConsecutiveErrors, hge]

theorem step_success_flag2_false (auto : Bool) (sess : Option Nat) (e : Nat)
    (r : RecentMap) (i : IterInput) (h0 : i.flag0 = true)
    (h1 : i.flag1 = true) (hf : i.frameOk = true) (he : i.encodeOk = true)
    (h2 : i.flag2 = false) :
    generateFramesStep auto sess e r i =
      { events := Ev.capture ::
          (attendanceBlock auto sess i.sink i.now r i.detections).1,
        errors := 0,
        recent := (attendanceBlock auto sess i.sink i.now r i.detections).2,
        outcome := Outcome.exit } := by
  simp [generateFramesStep, h0, h1, hf, he, h2]

theorem step_success_flag2_true (auto : Bool) (sess : Option Nat) (e : Nat)
    (r : RecentMap) (i : IterInput) (h0 : i.flag0 = true)
    (h1 : i.flag1 = true) (hf : i.frameOk = true) (he : i.encodeOk = true)
    (h2 : i.flag2 = true) :
    generateFramesStep auto sess e r i =
      { events := Ev.capture ::
          (attendanceBlock auto sess i.sink i.now r i.detections).1 ++
          [Ev.yieldFrame],
        errors := 0,
        recent := (attendanceBlock auto sess i.sink i.now r i.detections).2,
        outcome := if i.flag3 then Outcome.next else Outcome.exit } := by
  cases h3 : i.flag3 <;> simp [generateFramesStep, h0, h1, hf, he, h2, h3]

theorem step_outcome_errors_projection (auto : Bool) (sess : Option Nat)
    (e : Nat) (r : RecentMap) (i : IterInput) :
    (generateFramesStep auto sess e r i).outcome =
      stepOutcome e i.flag0 i.flag1 i.frameOk i.encodeOk i.flag2 i.flag3 ∧
    (generateFramesStep auto sess e r i).errors =
      stepErrors e i.flag0 i.flag1 i.frameOk i.encodeOk := by
  cases h0 : i.flag0 <;> cases h1 : i.flag1 <;> cases hf : i.frameOk <;>
    cases he : i.encodeOk <;> cases h2 : i.flag2 <;> cases h3 : i.flag3 <;>
    constructor <;>
    simp [generateFramesStep, stepOutcome, stepErrors, h0, h1, hf, he, h2, h3] <;>
    split <;> simp

/-- C4.  The in-memory cooldown map gains an entry (timestamped `now`) only
when the sink confirms a new record; when the sink reports a duplicate or
raises, the map is unchanged; and the iteration's outcome and error counter
are functions of the flags, the frame status and the encode status alone,
so a sink failure never terminates the streaming loop. -/
theorem attendance_suppressed_no_update (now : ℚ) :
    (∀ (sink : Nat → SinkResult) (recent : RecentMap) (d : Detection),
      (offerDetection sink now recent d).2 = recent ∨
      ∃ sid, d.student_db_id = some sid ∧ sink sid = SinkResult.recorded ∧
        (offerDetection sink now recent d).2 = insertRecent recent sid now) ∧
    (∀ (sink : Nat → SinkResult) (recent : RecentMap) (d : Detection)
      (sid : Nat), d.student_db_id = some sid →
      sink sid ≠ SinkResult.recorded →
      (offerDetection sink now recent d).2 = recent) ∧
    (∀ (auto : Bool) (sess : Option Nat) (e : Nat) (r : RecentMap)
      (i : IterInput),
      (generateFramesStep auto sess e r i).outcome =
        stepOutcome e i.flag0 i.flag1 i.frameOk i.encodeOk i.flag2 i.flag3 ∧
      (generateFramesStep auto sess e r i).errors =
        stepErrors e i.flag0 i.flag1 i.frameOk i.encodeOk) :=
  ⟨fun sink recent d => offerDetection_recent_update sink now recent d,
   fun sink recent d sid h1 h2 =>
     offerDetection_not_recorded sink now recent d sid h1 h2,
   fun auto sess e r i => step_outcome_errors_projection auto sess e r i⟩

/-- Witness instantiating `attendance_suppressed_no_update`: a sink error
leaves the cooldown map untouched. -/
theorem attendance_suppressed_no_update_witness :
    (offerDetection (fun _ => SinkResult.sinkError) 0 []
      ⟨"alice", 1, (0, 0, 0, 0), some 4, 1⟩).2 = [] :=
  (attendance_suppressed_no_update 0).2.1 (fun _ => SinkResult.sinkError) []
    ⟨"alice", 1, (0, 0, 0, 0), some 4, 1⟩ 4 rfl
    (fun h => SinkResult.noConfusion h)

theorem sink_events_counts (auto : Bool) (sess : Option Nat)
    (sink : Nat → SinkResult) (now : ℚ) (recent : RecentMap)
    (dets : List Detection) :
    countEv isTerminalError (attendanceBlock auto sess sink now recent dets).1 = 0 ∧
    countEv isYield (attendanceBlock auto sess sink now recent dets).1 = 0 ∧
    countEv isCapture (attendanceBlock auto sess sink now recent dets).1 = 0 ∧
    countEv isStopCam (attendanceBlock auto sess sink now recent dets).1 = 0 := by
  have h := attendanceBlock_events_sinkCall auto sess sink now recent dets
  exact ⟨countEv_eq_zero (fun e he => (sinkCall_only e (h e he)).1),
         countEv_eq_zero (fun e he => (sinkCall_only e (h e he)).2.1),
         countEv_eq_zero (fun e he => (sinkCall_only e (h e he)).2.2.1),
         countEv_eq_zero (fun e he => (sinkCall_only e (h e he)).2.2.2)⟩

/-- Running the loop on any schedule of consecutive encode-failure
iterations long enough to reach the ceiling from the current counter emits
the terminal error exactly once and stops the camera exactly once. -/
theorem run_encodeFail_all (auto : Bool) (sess : Option Nat) :
    ∀ (inputs : List IterInput) (e : Nat) (r : RecentMap),
      (∀ j ∈ inputs, encodeFailIter j) → e < 5 → 5 ≤ e + inputs.length →
      countEv isTerminalError (generateFramesRun auto sess e r inputs) = 1 ∧
      countEv isStopCam (generateFramesRun auto sess e r inputs) = 1 := by
  intro inputs
  induction inputs with
  | nil =>
    intro e r _ he hlen
    simp only [List.length_nil, Nat.add_zero] at hlen
    omega
  | cons i rest ih =>
    intro e r hall he hlen
    have hi := hall i (by simp)
    have hcounts := sink_events_counts auto sess i.sink i.now r i.detections
    by_cases hceil : 5 ≤ e + 1
    · have hstep := step_encodeFail_ceiling auto sess e r i hi hceil
      simp only [generateFramesRun, hstep]
      constructor
      · simp [countEv_append, countEv_cons, countEv_nil, countEv_singleton,
          hcounts.1, isTerminalError]
      · simp [countEv_append, countEv_cons, countEv_nil, countEv_singleton,
          hcounts.2.2.2, isStopCam]
    · have hstep := step_encodeFail_below auto sess e r i hi (by omega)
      simp only [generateFramesRun, hstep]
      have hrest := ih (e + 1)
        (attendanceBlock auto sess i.sink i.now r i.detections).2
        (fun j hj => hall j (by simp [hj])) (by omega)
        (by simp only [List.length_cons] at hlen; omega)
      constructor
      · simp [countEv_append, countEv_cons, countEv_nil, countEv_singleton,
          hcounts.1, hrest.1, isTerminalError]
      · simp [countEv_append, countEv_cons, countEv_nil, countEv_singleton,
          hcounts.2.2.2, hrest.2, isStopCam]

/-- C2 (counterexample).  The claim says an empty/None captured frame
increments the consecutive-error counter, so five consecutive empty frames
would terminate the session.  In the code the empty-frame branch
(`continue` after a backoff, lines 295-298) leaves the counter untouched:
after one such iteration the counter is still `0` and the loop continues,
and five consecutive empty-frame iterations produce five captures with no
terminal error and no camera stop. -/
theorem empty_frame_not_counted_counterexample :
    (generateFramesStep true (some 1) 0 [] emptyFrameInput).errors = 0 ∧
    (generateFramesStep true (some 1) 0 [] emptyFrameInput).outcome =
      Outcome.next ∧
    generateFramesRun true (some 1) 0 []
      (List.replicate 5 emptyFrameInput) =
      [Ev.capture, Ev.capture, Ev.capture, Ev.capture, Ev.capture] :=
  ⟨rfl, rfl, rfl⟩

/-- C2 (amended).  Inside the streaming loop an empty/None captured frame
is skipped without touching the consecutive-error counter (so empty frames
alone never terminate the session), a JPEG encode failure increments the
counter, reaching the ceiling of 5 terminates the session surfacing the
terminal error exactly once (followed by the camera cleanup), any
successful iteration resets the counter to zero, and a single isolated
failure never terminates the session. -/
theorem generate_frames_error_counter (auto : Bool) (sess : Option Nat) :
    (∀ (e : Nat) (r : RecentMap) (i : IterInput), i.flag0 = true →
      i.flag1 = true → i.frameOk = false →
      (generateFramesStep auto sess e r i).errors = e ∧
      (generateFramesStep auto sess e r i).outcome = Outcome.next) ∧
    (∀ (e : Nat) (r : RecentMap) (i : IterInput), encodeFailIter i →
      (generateFramesStep auto sess e r i).errors = e + 1 ∧
      (e + 1 < 5 →
        (generateFramesStep auto sess e r i).outcome = Outcome.next ∧
        countEv isTerminalError (generateFramesStep auto sess e r i).events = 0) ∧
      (5 ≤ e + 1 →
        (generateFramesStep auto sess e r i).outcome = Outcome.exit ∧
        countEv isTerminalError (generateFramesStep auto sess e r i).events = 1)) ∧
    (∀ (e : Nat) (r : RecentMap) (i : IterInput), i.flag0 = true →
      i.flag1 = true → i.frameOk = true → i.encodeOk = true →
      (generateFramesStep auto sess e r i).errors = 0) ∧
    (∀ (inputs : List IterInput) (r : RecentMap),
      (∀ j ∈ inputs, encodeFailIter j) → 5 ≤ inputs.length →
      countEv isTerminalError (generateFramesRun auto sess 0 r inputs) = 1 ∧
      countEv isStopCam (generateFramesRun auto sess 0 r inputs) = 1) := by
  refine ⟨?_, ?_, ?_, ?_⟩
  · intro e r i h0 h1 hf
    rw [step_emptyFrame auto sess e r i h0 h1 hf]
    exact ⟨rfl, rfl⟩
  · intro e r i hi
    have hcounts := sink_events_counts auto sess i.sink i.now r i.detections
    refine ⟨?_, ?_, ?_⟩
    · by_cases hceil : 5 ≤ e + 1
      · rw [step_encodeFail_ceiling auto sess e r i hi hceil]
      · rw [step_encodeFail_below auto sess e r i hi (by omega)]
    · intro hlt
      rw [step_encodeFail_below auto sess e r i hi hlt]
      refine ⟨rfl, ?_⟩
      simp [countEv_cons, countEv_nil, hcounts.1, isTerminalError]
    · intro hge
      rw [step_encodeFail_ceiling auto sess e r i hi hge]
      refine ⟨rfl, ?_⟩
      simp [countEv_cons, countEv_append, countEv_nil, countEv_singleton,
        hcounts.1, isTerminalError]
  · intro e r i h0 h1 hf he
    cases h2 : i.flag2
    · rw [step_success_flag2_false auto sess e r i h0 h1 hf he h2]
    · rw [step_success_flag2_true auto sess e r i h0 h1 hf he h2]
  · intro inputs r hall hlen
    exact run_encodeFail_all auto sess inputs 0 r hall (by omega)
      (by omega)

/-- Witness instantiating `generate_frames_error_counter` on five
consecutive encode failures from a clean counter. -/
theorem generate_frames_error_counter_witness :
    countEv isTerminalError (generateFramesRun true (some 1) 0 []
      (List.replicate 5 encodeFailInput)) = 1 ∧
    countEv isStopCam (generateFramesRun true (some 1) 0 []
      (List.replicate 5 encodeFailInput)) = 1 :=
  (generate_frames_error_counter true (some 1)).2.2.2
    (List.replicate 5 encodeFailInput) []
    (fun j hj => by
      rw [List.eq_of_mem_replicate hj]
      exact ⟨rfl, rfl, rfl, rfl⟩)
    (by simp)

/-- C6.  Once the shared streaming flag reads false, the loop exits at the
first checkpoint of the next iteration without capturing or emitting
anything, proceeding only to the cleanup that stops the camera; if the flag
goes down mid-iteration (before the pre-yield checkpoint), the in-flight
frame may account for one final capture but no further output unit is
emitted and the run still ends in the camera cleanup. -/
theorem generate_frames_stop_flag (auto : Bool) (sess : Option Nat) :
    (∀ (e : Nat) (r : RecentMap) (i : IterInput) (rest : List IterInput),
      flagDown i →
      generateFramesRun auto sess e r (i :: rest) = [Ev.stopCam]) ∧
    (∀ (e : Nat) (r : RecentMap) (i : IterInput) (rest : List IterInput),
      i.flag2 = false → rest ≠ [] → (∀ j ∈ rest, flagDown j) →
      countEv isYield (generateFramesRun auto sess e r (i :: rest)) = 0 ∧
      countEv isCapture (generateFramesRun auto sess e r (i :: rest)) ≤ 1 ∧
      countEv isStopCam (generateFramesRun auto sess e r (i :: rest)) = 1) := by
  have hpart1 : ∀ (e : Nat) (r : RecentMap) (i : IterInput)
      (rest : List IterInput), i.flag0 = false →
      generateFramesRun auto sess e r (i :: rest) = [Ev.stopCam] := by
    intro e r i rest h0
    simp only [generateFramesRun, step_flag0_false auto sess e r i h0]
    rfl
  refine ⟨fun e r i rest hd => hpart1 e r i rest hd.1, ?_⟩
  intro e r i rest h2 hrest hall
  have hrun_rest : ∀ (e2 : Nat) (r2 : RecentMap),
      generateFramesRun auto sess e2 r2 rest = [Ev.stopCam] := by
    intro e2 r2
    rcases rest with _ | ⟨j, rest2⟩
    · exact absurd rfl hrest
    · exact hpart1 e2 r2 j rest2 (hall j (by simp)).1
  have hcounts := sink_events_counts auto sess i.sink i.now r i.detections
  cases h0 : i.flag0 with
  | false =>
    rw [hpart1 e r i rest h0]
    refine ⟨rfl, by simp [countEv, isCapture], rfl⟩
  | true =>
    cases h1 : i.flag1 with
    | false =>
      rw [show generateFramesRun auto sess e r (i :: rest) = [Ev.stopCam] by
        simp only [generateFramesRun, step_flag1_false auto sess e r i h0 h1]
        rfl]
      refine ⟨rfl, by simp [countEv, isCapture], rfl⟩
    | true =>
      cases hf : i.frameOk with
      | false =>
        have hstep := step_emptyFrame auto sess e r i h0 h1 hf
        simp only [generateFramesRun, hstep]
        rw [hrun_rest e r]
        refine ⟨by simp [countEv_append, countEv_cons, countEv_nil,
            countEv_singleton, isYield],
          by simp [countEv_append, countEv_cons, countEv_nil,
            countEv_singleton, isCapture],
          by simp [countEv_append, countEv_cons, countEv_nil,
            countEv_singleton, isStopCam]⟩
      | true =>
        cases he : i.encodeOk with
        | false =>
          by_cases hceil : 5 ≤ e + 1
          · have hstep := step_encodeFail_ceiling auto sess e r i
              ⟨h0, h1, hf, he⟩ hceil
            simp only [generateFramesRun, hstep]
            refine ⟨?_, ?_, ?_⟩
            · simp [countEv_append, countEv_cons, countEv_nil,
                countEv_singleton, hcounts.2.1, isYield]
            · simp [countEv_append, countEv_cons, countEv_nil,
                countEv_singleton, hcounts.2.2.1, isCapture]
            · simp [countEv_append, countEv_cons, countEv_nil,
                countEv_singleton, hcounts.2.2.2, isStopCam]
          · have hstep := step_encodeFail_below auto sess e r i
              ⟨h0, h1, hf, he⟩ (by omega)
            simp only [generateFramesRun, hstep]
            rw [hrun_rest (e + 1)
              (attendanceBlock auto sess i.sink i.now r i.detections).2]
            refine ⟨?_, ?_, ?_⟩
            · simp [countEv_append, countEv_cons, countEv_nil,
                countEv_singleton, hcounts.2.1, isYield]
            · simp [countEv_append, countEv_cons, countEv_nil,
                countEv_singleton, hcounts.2.2.1, isCapture]
            · simp [countEv_append, countEv_cons, countEv_nil,
                countEv_singleton, hcounts.2.2.2, isStopCam]
        | true =>
          have hstep := step_success_flag2_false auto sess e r i h0 h1 hf he h2
          simp only [generateFramesRun, hstep]
          refine ⟨?_, ?_, ?_⟩
          · simp [countEv_append, countEv_cons, countEv_nil,
              countEv_singleton, hcounts.2.1, isYield]
          · simp [countEv_append, countEv_cons, countEv_nil,
              countEv_singleton, hcounts.2.2.1, isCapture]
          · simp [countEv_append, countEv_cons, countEv_nil,
              countEv_singleton, hcounts.2.2.2, isStopCam]

/-- Witness instantiating `generate_frames_stop_flag`: an iteration whose
flag reads are all false exits straight to the camera cleanup. -/
theorem generate_frames_stop_flag_witness :
    generateFramesRun true (some 1) 0 [] [stopFlagInput] = [Ev.stopCam] :=
  (generate_frames_stop_flag true (some 1)).1 0 [] stopFlagInput []
    ⟨rfl, rfl, rfl, rfl⟩

/-! ## Claim C9: `load_encodings_from_db` and concurrent lookups

`load_encodings_from_db` rebuilds the three parallel lists through a
sequence of separate attribute writes: the three clears
`self.known_X = []` followed, for each repository row, by the three
appends of the loop body.  There is no lock around them, so a concurrent
`recognize_face` can run between any two of these atomic writes; the store
it observes is `applyOps s₀` of a proper prefix of the write sequence. -/

/-- One atomic write performed by `load_encodings_from_db`. -/
inductive LoadOp
  | clearEncodings
  | clearNames
  | clearIds
  | appendEncoding (e : List ℚ)
  | appendName (n : String)
  | appendId (sid : Nat)
  deriving Repr

def applyOp (s : Store) : LoadOp → Store
  | LoadOp.clearEncodings => { s with known_encodings := [] }
  | LoadOp.clearNames => { s with known_names := [] }
  | LoadOp.clearIds => { s with known_ids := [] }
  | LoadOp.appendEncoding e =>
    { s with known_encodings := s.known_encodings ++ [e] }
  | LoadOp.appendName n => { s with known_names := s.known_names ++ [n] }
  | LoadOp.appendId sid => { s with known_ids := s.known_ids ++ [sid] }

def applyOps (s : Store) : List LoadOp → Store
  | [] => s
  | op :: ops => applyOps (applyOp s op) ops

/-- The three appends of one iteration of
`for name, encoding, student_id in encodings_list:` (lines 89-92), in
source order. -/
def rowOps (r : String × List ℚ × Nat) : List LoadOp :=
  [LoadOp.appendEncoding r.2.1, LoadOp.appendName r.1, LoadOp.appendId r.2.2]

/-- The full write sequence of `load_encodings_from_db` for a fetched
repository result `rows`. -/
def loadOps (rows : List (String × List ℚ × Nat)) : List LoadOp :=
  [LoadOp.clearEncodings, LoadOp.clearNames, LoadOp.clearIds] ++
    rows.flatMap rowOps

/-- The store a completed reload should leave behind. -/
def storeOfRows (rows : List (String × List ℚ × Nat)) : Store :=
  { known_encodings := rows.map (fun r => r.2.1),
    known_names := rows.map (fun r => r.1),
    known_ids := rows.map (fun r => r.2.2) }

theorem applyOps_append (s : Store) (ops1 ops2 : List LoadOp) :
    applyOps s (ops1 ++ ops2) = applyOps (applyOps s ops1) ops2 := by
  induction ops1 generalizing s with
  | nil => rfl
  | cons op ops ih => simp [applyOps, ih]

theorem applyOps_rows (rows : List (String × List ℚ × Nat)) :
    ∀ es ns ids, applyOps ⟨es, ns, ids⟩ (rows.flatMap rowOps) =
      ⟨es ++ rows.map (fun r => r.2.1), ns ++ rows.map (fun r => r.1),
       ids ++ rows.map (fun r => r.2.2)⟩ := by
  induction rows with
  | nil => intro es ns ids; simp [applyOps]
  | cons r rows ih =>
    intro es ns ids
    rw [List.flatMap_cons, applyOps_append]
    have h1 : applyOps ⟨es, ns, ids⟩ (rowOps r) =
        ⟨es ++ [r.2.1], ns ++ [r.1], ids ++ [r.2.2]⟩ := rfl
    rw [h1, ih]
    simp

/-- C9 (counterexample).  After four of load's six atomic writes for the
single replacement row `("bob", [3], 7)` — the three clears plus the first
append — a concurrently running `recognize_face` observes encodings of
length 1 against names of length 0 (inconsistent parallel lists, new
encoding mixed with the cleared name list), and the lookup of the matched
name fails (the modelled `IndexError`). -/
theorem load_not_atomic_counterexample :
    (applyOps ⟨[[0]], ["alice"], [5]⟩
        ((loadOps [("bob", [3], 7)]).take 4)).known_encodings.length = 1 ∧
    (applyOps ⟨[[0]], ["alice"], [5]⟩
        ((loadOps [("bob", [3], 7)]).take 4)).known_names.length = 0 ∧
    recognize_face (applyOps ⟨[[0]], ["alice"], [5]⟩
        ((loadOps [("bob", [3], 7)]).take 4)) 20 [3] = none := by
  have hmid : applyOps ⟨[[0]], ["alice"], [5]⟩
      ((loadOps [("bob", [3], 7)]).take 4) = ⟨[[3]], [], []⟩ := rfl
  rw [hmid]
  refine ⟨rfl, rfl, ?_⟩
  simp [recognize_face, distances, sqDist, minD, argminIdx, sqrtLtQ]

/-- C9 (amended).  The reload is not atomic: it is the write sequence
`loadOps`, and a lookup interleaved inside it can observe inconsistent
parallel lists (see the counterexample).  What does hold is sequential
replacement: applying the complete write sequence to any prior store
yields exactly the freshly fetched identity set, with the three parallel
lists at equal lengths, so a lookup that does not overlap a reload never
observes a partially-replaced set. -/
theorem load_encodings_sequential (s : Store)
    (rows : List (String × List ℚ × Nat)) :
    applyOps s (loadOps rows) = storeOfRows rows ∧
    (applyOps s (loadOps rows)).known_names.length =
      (applyOps s (loadOps rows)).known_encodings.length ∧
    (applyOps s (loadOps rows)).known_ids.length =
      (applyOps s (loadOps rows)).known_encodings.length := by
  have h : applyOps s (loadOps rows) = storeOfRows rows := by
    unfold loadOps
    rw [applyOps_append]
    have hclear : applyOps s
        [LoadOp.clearEncodings, LoadOp.clearNames, LoadOp.clearIds] =
        ⟨[], [], []⟩ := rfl
    rw [hclear, applyOps_rows]
    simp [storeOfRows]
  refine ⟨h, ?_, ?_⟩ <;> rw [h] <;> simp [storeOfRows]

end FaceAttendance
